import Mathlib

/-!
Verification of the translation cache and batch coordination pipeline of
`src/services/groq-translator.ts` (worldmonitor).  The TypeScript functions are
shallowly embedded as executable Lean definitions: JS strings are Lean
`String`s, `Date.now()` timestamps are explicit `Int` parameters, the module
level `translationCache` object is an association list threaded through every
operation, and the outbound `fetch` to the provider is an oracle value passed
in (`ProviderResult`).
-/

/-! ## Text primitives (models of the JS string operations used by the source) -/

/-- Whitespace as recognised by the JS `trim` / `\s` uses in the source
(space, tab, newline, carriage return cover every input the source handles). -/
def jsWs (c : Char) : Bool :=
  c = ' ' || c = '\t' || c = '\n' || c = '\r'

/-- Model of `String.prototype.trim`. -/
def trimChars (l : List Char) : List Char :=
  ((l.dropWhile jsWs).reverse.dropWhile jsWs).reverse

/-- Model of `s.trim()`. -/
def jsTrim (s : String) : String :=
  ⟨trimChars s.toList⟩

/-- ASCII lower casing of one character (models the case folding performed by
`toLowerCase()` / the `i` regex flag on the ASCII labels the source matches). -/
def lowerChar (c : Char) : Char :=
  if 'A' ≤ c ∧ c ≤ 'Z' then Char.ofNat (c.toNat + 32) else c

/-- `beginsWith p l` : `p` is an initial segment of `l`. -/
def beginsWith : List Char → List Char → Bool
  | [], _ => true
  | _ :: _, [] => false
  | p :: ps, c :: cs => p == c && beginsWith ps cs

/-- Case-insensitive check that `s` starts with the (lowercase ASCII) `label`;
models `trimmed.toLowerCase().startsWith(label)` and `/^label/i` tests. -/
def beginsWithCI (label : String) (s : String) : Bool :=
  beginsWith label.toList (s.toList.map lowerChar)

/-- Model of `s.replace(/^label\s*` `/i, '')` : drop the leading label and the
whitespace that follows it; leave `s` unchanged when the label is absent. -/
def stripLabel (label : String) (s : String) : String :=
  if beginsWithCI label s then ⟨(s.toList.drop label.toList.length).dropWhile jsWs⟩
  else s

/-- Model of `s.split('\n')`. -/
def splitNl : List Char → List (List Char)
  | [] => [[]]
  | '\n' :: rest => [] :: splitNl rest
  | c :: rest =>
    match splitNl rest with
    | [] => [[c]]
    | h :: t => (c :: h) :: t

/-- Model of `s.split('\n\n')`. -/
def splitNl2 : List Char → List (List Char)
  | [] => [[]]
  | '\n' :: '\n' :: rest => [] :: splitNl2 rest
  | c :: rest =>
    match splitNl2 rest with
    | [] => [[c]]
    | h :: t => (c :: h) :: t

/-- The lines of a reply, as in `translated.split('\n')`. -/
def linesOf (s : String) : List String :=
  (splitNl s.toList).map fun l => ⟨l⟩

/-! ## btoa and the fingerprint (cache key) of `translateNews` (line 47) -/

/-- All characters of `s` lie in Latin-1; exactly the strings `btoa` accepts
(a JS string whose UTF-16 units all fit in a byte). -/
def latin1 (s : String) : Bool :=
  s.toList.all fun c => c.toNat ≤ 255

/-- The base64 alphabet. -/
def b64Char (n : Nat) : Char :=
  "ABCDEFGHIJKLMNOPQRSTUVWXYZabcdefghijklmnopqrstuvwxyz0123456789+/".toList.getD n 'A'

/-- Standard base64 of a byte list (3 bytes to 4 alphabet characters, with
`=` padding), as produced by `btoa` on its accepted inputs. -/
def base64Encode : List Nat → List Char
  | [] => []
  | [a] => [b64Char (a / 4), b64Char (a % 4 * 16), '=', '=']
  | [a, b] => [b64Char (a / 4), b64Char (a % 4 * 16 + b / 16), b64Char (b % 16 * 4), '=']
  | a :: b :: c :: rest =>
    b64Char (a / 4) :: b64Char (a % 4 * 16 + b / 16) ::
      b64Char (b % 16 * 4 + c / 64) :: b64Char (c % 64) :: base64Encode rest

/-- Model of the browser `btoa`: base64 of the code units when they all fit in
a byte, `none` (an `InvalidCharacterError` throw) as soon as any character lies
above U+00FF. -/
def btoa (s : String) : Option String :=
  if latin1 s then some ⟨base64Encode (s.toList.map Char.toNat)⟩ else none

/-- The cache key of `translateNews`, line 47:
`` trans_${btoa(title)}${summary ? '_' + btoa(summary) : ''} ``.
`none` models the `btoa` throw escaping `translateNews` (the statement is
outside its `try`).  An empty summary string is falsy in JS, so it adds no
suffix and `btoa` is not called on it. -/
def fingerprint (title : String) (summary : Option String) : Option String :=
  match btoa title with
  | none => none
  | some bt =>
    match summary with
    | none => some ("trans_" ++ bt)
    | some s =>
      if s = "" then some ("trans_" ++ bt)
      else
        match btoa s with
        | none => none
        | some bs => some ("trans_" ++ bt ++ "_" ++ bs)

/-! ## The in-memory cache (module-level `translationCache` object) -/

/-- One value of the `TranslationCache` map (source lines 6-12). -/
structure CacheVal where
  translatedTitle : String
  translatedSummary : Option String
  timestamp : Int
deriving DecidableEq

/-- The `translationCache` JS object: an association list with at most one
binding per key (maintained by `insertEntry`). -/
abbrev Cache := List (String × CacheVal)

/-- `translationCache[key]` read. -/
def lookupKey : Cache → String → Option CacheVal
  | [], _ => none
  | (k, v) :: rest, key => if k = key then some v else lookupKey rest key

/-- Remove every binding of `key` (helper for `insertEntry`). -/
def eraseKey (key : String) : Cache → Cache
  | [] => []
  | (k, v) :: rest =>
    if k = key then eraseKey key rest else (k, v) :: eraseKey key rest

/-- `translationCache[key] = v` : a JS object holds one binding per key. -/
def insertEntry (cache : Cache) (key : String) (v : CacheVal) : Cache :=
  (key, v) :: eraseKey key cache

/-- `CACHE_TTL = 24 * 60 * 60 * 1000` (source line 20). -/
def CACHE_TTL : Int := 24 * 60 * 60 * 1000

/-- The TTL-guarded read used by every lookup in the source
(`cached && Date.now() - cached.timestamp < CACHE_TTL`, lines 51 and 184). -/
def getValid (cache : Cache) (now : Int) (key : String) : Option CacheVal :=
  match lookupKey cache key with
  | some v => if now - v.timestamp < CACHE_TTL then some v else none
  | none => none

example : btoa "Hello" = some "SGVsbG8=" := by decide
example : fingerprint "Hello" none = some "trans_SGVsbG8=" := by decide
example : fingerprint "Hi" (some "there") = some "trans_SGk=_dGhlcmU=" := by decide
example : jsTrim "  a b \n" = "a b" := by decide
example : stripLabel "title:" "Title:  你好" = "你好" := by decide
example : linesOf "a\nb" = ["a", "b"] := by decide
example : splitNl2 "a\n\nb".toList = ["a".toList, "b".toList] := by decide

/-! ## Cache helpers keyed by news id (source lines 37-39, 181-203) -/

/-- `getCacheKey` (line 37): `` `trans_${newsId}` ``. -/
def getCacheKey (newsId : String) : String :=
  "trans_" ++ newsId

/-- The pair returned to callers. -/
structure TransResult where
  title : String
  summary : Option String
deriving DecidableEq

/-- `getCachedTranslation` (lines 181-191). -/
def getCachedTranslation (cache : Cache) (now : Int) (newsId : String) : Option TransResult :=
  match getValid cache now (getCacheKey newsId) with
  | some v => some ⟨v.translatedTitle, v.translatedSummary⟩
  | none => none

/-- `cacheTranslation` (lines 196-203). -/
def cacheTranslation (newsId : String) (title : String) (summary : Option String)
    (now : Int) (cache : Cache) : Cache :=
  insertEntry cache (getCacheKey newsId) ⟨title, summary, now⟩

/-- `persistTranslationCache` (lines 142-155): the snapshot keeps exactly the
entries still within the TTL at persist time. -/
def persistTranslationCache (cache : Cache) (now : Int) : Cache :=
  match cache with
  | [] => []
  | (k, v) :: rest =>
    if now - v.timestamp < CACHE_TTL then (k, v) :: persistTranslationCache rest now
    else persistTranslationCache rest now

/-- `loadTranslationCache` (lines 160-176): every stored entry still within the
TTL at load time is written into the in-memory cache, in order. -/
def loadTranslationCache (stored : Cache) (cache : Cache) (now : Int) : Cache :=
  match stored with
  | [] => cache
  | (k, v) :: rest =>
    loadTranslationCache rest
      (if now - v.timestamp < CACHE_TTL then insertEntry cache k v else cache) now

/-- `isChinese` (lines 29-32): some character lies in U+4E00 - U+9FFF. -/
def isChinese (s : String) : Bool :=
  s.toList.any fun c => decide (0x4e00 ≤ c.toNat ∧ c.toNat ≤ 0x9fff)

/-! ## The outbound provider call, as an oracle -/

/-- Outcome of the `fetch` to the provider: the promise rejects, the response
has a non-ok status, or it delivers a JSON body whose
`choices?.[0]?.message?.content` is the given optional string. -/
inductive ProviderResult where
  | throws : ProviderResult
  | httpError : Nat → ProviderResult
  | ok : Option String → ProviderResult
deriving DecidableEq

/-- The trimmed reply text the source proceeds with, `none` when the source
throws into its fallback instead (`!response.ok`, missing content, or content
empty after trim; lines 94-103). -/
def usable : ProviderResult → Option String
  | .throws => none
  | .httpError _ => none
  | .ok none => none
  | .ok (some c) =>
    let t := jsTrim c
    if t = "" then none else some t

/-! ## `translateNews` (lines 41-137) -/

/-- JS truthiness of the optional summary (lines 47, 67, 109: an empty string
counts as absent). -/
def summaryTruthy : Option String → Bool
  | none => false
  | some s => !(s == "")

/-- Parsing of a single-item reply (lines 105-120): with a truthy summary the
reply is split on blank lines and the first two parts are de-labelled and
trimmed; otherwise (or when the split yields fewer than two parts) the whole
reply is the title and the summary is dropped. -/
def parseSingle (tr : String) (summary : Option String) : String × Option String :=
  if summaryTruthy summary then
    match splitNl2 tr.toList with
    | p0 :: p1 :: _ =>
      (jsTrim (stripLabel "title:" ⟨p0⟩), some (jsTrim (stripLabel "summary:" ⟨p1⟩)))
    | _ => (tr, none)
  else (tr, none)

/-- What the synchronous prefix of `translateNews` (lines 46-63, everything
before the `await fetch`) decides. -/
inductive Phase1Out where
  | thrown : Phase1Out
  | done : TransResult → Phase1Out
  | dispatch : String → Phase1Out
deriving DecidableEq

/-- Synchronous prefix of `translateNews`: compute the fingerprint (a `btoa`
throw escapes the function), return a valid cache entry, return the original
pair when no API key is available, otherwise dispatch an outbound call under
the fingerprint key. -/
def phase1 (title : String) (summary : Option String) (hasKey : Bool)
    (now : Int) (cache : Cache) : Phase1Out :=
  match fingerprint title summary with
  | none => .thrown
  | some key =>
    match getValid cache now key with
    | some v => .done ⟨v.translatedTitle, v.translatedSummary⟩
    | none => if hasKey then .dispatch key else .done ⟨title, summary⟩

/-- Completion of `translateNews` after the `await` (lines 94-136): on a
usable reply, parse it, write the cache under the fingerprint key and return
the parsed pair; on any failure return the original pair and leave the cache
untouched. -/
def phase2 (title : String) (summary : Option String) (key : String)
    (resp : ProviderResult) (now : Int) (cache : Cache) : TransResult × Cache :=
  match usable resp with
  | none => (⟨title, summary⟩, cache)
  | some tr =>
    let p := parseSingle tr summary
    (⟨p.1, p.2⟩, insertEntry cache key ⟨p.1, p.2, now⟩)

/-- `translateNews` as one sequential call: the state it reads and writes
(`translationCache`, `Date.now()`, the provider) passed explicitly.  The
`Bool` of the result records whether an outbound call was made; `.error ()` is
the `btoa` exception propagating to the caller. -/
def translateNews (title : String) (summary : Option String) (hasKey : Bool)
    (resp : ProviderResult) (now : Int) (cache : Cache) :
    Except Unit (TransResult × Cache × Bool) :=
  match phase1 title summary hasKey now cache with
  | .thrown => .error ()
  | .done r => .ok (r, cache, false)
  | .dispatch key =>
    let p := phase2 title summary key resp now cache
    .ok (p.1, p.2, true)

/-- Two overlapped executions of `translateNews` (API key present): both run
their synchronous prefix against the same initial cache - i.e. the second call
starts before the first one's `await fetch` resolves - then the completions
run in order, the second seeing the first one's cache write.  The `Nat`
counts the outbound provider calls made in total. -/
def overlappedRun (title : String) (summary : Option String)
    (resp1 resp2 : ProviderResult) (now1 now2 : Int) (cache : Cache) :
    Except Unit ((TransResult × TransResult) × Cache × Nat) :=
  match phase1 title summary true now1 cache, phase1 title summary true now1 cache with
  | .thrown, _ => .error ()
  | _, .thrown => .error ()
  | .done r1, .done r2 => .ok ((r1, r2), cache, 0)
  | .done r1, .dispatch k2 =>
    let p := phase2 title summary k2 resp2 now2 cache
    .ok ((r1, p.1), p.2, 1)
  | .dispatch k1, .done r2 =>
    let p := phase2 title summary k1 resp1 now2 cache
    .ok ((p.1, r2), p.2, 1)
  | .dispatch k1, .dispatch k2 =>
    let p1 := phase2 title summary k1 resp1 now2 cache
    let p2 := phase2 title summary k2 resp2 now2 p1.2
    .ok ((p1.1, p2.1), p2.2, 2)

example :
    translateNews "Hello" none true (.ok (some "你好")) 0 [] =
      .ok (⟨"你好", none⟩, [("trans_SGVsbG8=", ⟨"你好", none, 0⟩)], true) := by rfl

example : translateNews "大火" none true (.ok (some "x")) 0 [] = .error () := by rfl

/-! ## `translateBatch` (lines 209-350) -/

/-- One item of a batch (`TranslationItem`, lines 14-18). -/
structure BItem where
  id : String
  title : String
  summary : Option String
deriving DecidableEq

/-- Model of `trimmed.match(/^(\d+)\.\s*` `/)` followed by `parseInt`: the
leading digit run when it is non-empty and immediately followed by a dot. -/
def numberLead (s : String) : Option Nat :=
  let ds := s.toList.takeWhile Char.isDigit
  match ds, s.toList.drop ds.length with
  | [], _ => none
  | _ :: _, '.' :: _ => some (ds.foldl (fun n c => n * 10 + (c.toNat - 48)) 0)
  | _ :: _, _ => none

/-- The filter on lines 214-218: keep items whose title is not already Chinese
and that have no valid id-keyed cache entry. -/
def pendingOf (items : List BItem) (cache : Cache) (now : Int) : List BItem :=
  items.filter fun it => !isChinese it.title && (getCachedTranslation cache now it.id).isNone

/-- One numbered prompt part (lines 240-246; an empty summary is falsy). -/
def mkPromptPart (n : Nat) (it : BItem) : String :=
  match it.summary with
  | some s =>
    if s = "" then toString n ++ ". Title: " ++ it.title
    else toString n ++ ". Title: " ++ it.title ++ "\nSummary: " ++ s
  | none => toString n ++ ". Title: " ++ it.title

/-- Number a pending list starting at `n` (the `index + 1` of line 241). -/
def numberFrom (n : Nat) : List BItem → List String
  | [] => []
  | it :: rest => mkPromptPart n it :: numberFrom (n + 1) rest

/-- The numbered parts of the composed provider call (lines 240-246). -/
def promptPartsOf (pending : List BItem) : List String :=
  numberFrom 1 pending

/-- The ordinals of the provider call `translateBatch` composes for an input:
the prompt parts built from its pending items (lines 214-248). -/
def dispatchedPromptParts (items : List BItem) (cache : Cache) (now : Int) : List String :=
  promptPartsOf (pendingOf items cache now)

/-- The parser state of lines 285-288: accumulated records, the record under
construction, the id of the current ordinal, plus the cache written to by the
interleaved `cacheTranslation` calls. -/
structure ParseState where
  results : List BItem
  currentItem : Option (String × Option String)
  currentId : String
  cache : Cache

/-- The save of a finished record (lines 297-301 and 321-325): pushed and
cached only when both a record and a non-empty current id exist. -/
def flushState (now : Int) (st : ParseState) : ParseState :=
  match st.currentItem with
  | some (t, s) =>
    if st.currentId = "" then st
    else
      { st with
        results := st.results ++ [⟨st.currentId, t, s⟩]
        cache := cacheTranslation st.currentId t s now st.cache }
  | none => st

/-- One line of the reply (lines 290-319): blank lines are skipped; a numbered
line flushes the previous record and selects `pendingItems[n-1]?.id || ''` as
the current id (an ordinal of `0` or beyond the pending list yields `''`);
`Title:` starts a record; `Summary:` extends an existing record. -/
def stepLine (pending : List BItem) (now : Int) (st : ParseState) (line : String) : ParseState :=
  let trimmed := jsTrim line
  if trimmed = "" then st
  else
    match numberLead trimmed with
    | some n =>
      let st' := flushState now st
      let cid :=
        if n = 0 then ""
        else
          match pending.get? (n - 1) with
          | some it => it.id
          | none => ""
      { st' with currentId := cid, currentItem := none }
    | none =>
      if beginsWithCI "title:" trimmed then
        { st with currentItem := some (jsTrim (stripLabel "title:" trimmed), none) }
      else if beginsWithCI "summary:" trimmed then
        match st.currentItem with
        | some (t, _) => { st with currentItem := some (t, some (jsTrim (stripLabel "summary:" trimmed))) }
        | none => st
      else st

/-- The whole reply parse (lines 284-325): fold the lines, then save the last
record. -/
def parseBatchReply (tr : String) (pending : List BItem) (now : Int) (cache : Cache) :
    List BItem × Cache :=
  let st := (linesOf tr).foldl (stepLine pending now) ⟨[], none, "", cache⟩
  let fin := flushState now st
  (fin.results, fin.cache)

/-- The merge of lines 328-339 for one input item: the first parsed record
with its id, else its id-keyed cache entry, else the original item. -/
def mergeOne (results : List BItem) (cache : Cache) (now : Int) (it : BItem) : BItem :=
  match results.find? (fun r => r.id == it.id) with
  | some r => r
  | none =>
    match getCachedTranslation cache now it.id with
    | some c => ⟨it.id, c.title, c.summary⟩
    | none => ⟨it.id, it.title, it.summary⟩

/-- The merge of lines 327-339: `items.map(...)`, preserving input order. -/
def mergeResults (items : List BItem) (results : List BItem) (cache : Cache) (now : Int) :
    List BItem :=
  items.map (mergeOne results cache now)

/-- `translateBatch` (lines 209-350), as one sequential call: nothing pending or no API
key returns the originals with no outbound call; an unusable reply falls back
to the originals (lines 341-349); otherwise the reply is parsed against the
pending list and merged back over the input. -/
def translateBatch (items : List BItem) (hasKey : Bool) (resp : ProviderResult)
    (now : Int) (cache : Cache) : List BItem × Cache × Bool :=
  let pending := pendingOf items cache now
  if pending.isEmpty then
    (items.map fun it => ⟨it.id, it.title, it.summary⟩, cache, false)
  else if hasKey = false then
    (items.map fun it => ⟨it.id, it.title, it.summary⟩, cache, false)
  else
    match usable resp with
    | none => (items.map fun it => ⟨it.id, it.title, it.summary⟩, cache, true)
    | some tr =>
      let pr := parseBatchReply tr pending now cache
      (mergeResults items pr.1 pr.2 now, pr.2, true)

/-! ## `TranslationStore.setTranslation` (second file, lines 444-447) -/

/-- The `TranslationStore` state the claims touch: the private
`translations` map and the shared `translationCache`. -/
structure TStore where
  translations : List (String × String)
  cache : Cache

/-- `setTranslation` (lines 444-447): record the translation under the id and
call `cacheTranslation(newsId, data.title)` (no summary). -/
def setTranslation (st : TStore) (newsId : String) (titleT : String) (now : Int) : TStore :=
  { translations := (newsId, titleT) :: st.translations.filter (fun p => !(p.1 == newsId))
    cache := cacheTranslation newsId titleT none now st.cache }

example :
    (translateBatch [⟨"a", "Apple", none⟩, ⟨"b", "Bread", none⟩, ⟨"c", "Cat", none⟩]
        true (.ok (some "1.\nTitle: 苹果\n3.\nTitle: 猫")) 0 []).1 =
      [⟨"a", "苹果", none⟩, ⟨"b", "Bread", none⟩, ⟨"c", "猫", none⟩] := by decide

example :
    translateBatch [⟨"a", "Hi", none⟩] true (.ok (some "1.\nTitle: X\n1.\nTitle: Y")) 0 [] =
      ([⟨"a", "X", none⟩], [("trans_a", ⟨"Y", none, 0⟩)], true) := by decide

/-! ## Helper lemmas about the cache model -/

theorem lookupKey_eraseKey_ne (k q : String) (h : k ≠ q) (c : Cache) :
    lookupKey (eraseKey k c) q = lookupKey c q := by
  induction c with
  | nil => rfl
  | cons p rest ih =>
    obtain ⟨a, v⟩ := p
    by_cases hak : a = k
    · subst hak
      simp [eraseKey, lookupKey, h, ih]
    · simp [eraseKey, lookupKey, hak, ih]

theorem lookupKey_insertEntry_self (c : Cache) (k : String) (v : CacheVal) :
    lookupKey (insertEntry c k v) k = some v := by
  simp [insertEntry, lookupKey]

theorem lookupKey_insertEntry_ne (c : Cache) (k q : String) (v : CacheVal) (h : k ≠ q) :
    lookupKey (insertEntry c k v) q = lookupKey c q := by
  simp [insertEntry, lookupKey, h, lookupKey_eraseKey_ne k q h c]

theorem lookupKey_none_of_notMem (q : String) (c : Cache) (h : q ∉ c.map Prod.fst) :
    lookupKey c q = none := by
  induction c with
  | nil => rfl
  | cons p rest ih =>
    obtain ⟨a, v⟩ := p
    simp only [List.map_cons, List.mem_cons, not_or] at h
    have ha : a ≠ q := fun hh => h.1 hh.symm
    simp [lookupKey, ha, ih h.2]

theorem persist_keys_sublist (t : Int) (c : Cache) :
    List.Sublist ((persistTranslationCache c t).map Prod.fst) (c.map Prod.fst) := by
  induction c with
  | nil => simp [persistTranslationCache]
  | cons p rest ih =>
    obtain ⟨a, v⟩ := p
    by_cases hv : t - v.timestamp < CACHE_TTL
    · simpa [persistTranslationCache, hv] using ih.cons₂ a
    · simpa [persistTranslationCache, hv] using ih.cons a

theorem persist_lookupKey (t : Int) (q : String) (c : Cache)
    (hnd : (c.map Prod.fst).Nodup) :
    lookupKey (persistTranslationCache c t) q =
      match lookupKey c q with
      | some v => if t - v.timestamp < CACHE_TTL then some v else none
      | none => none := by
  induction c with
  | nil => rfl
  | cons p rest ih =>
    obtain ⟨a, v⟩ := p
    simp only [List.map_cons, List.nodup_cons] at hnd
    by_cases haq : a = q
    · subst haq
      by_cases hv : t - v.timestamp < CACHE_TTL
      · simp [persistTranslationCache, hv, lookupKey]
      · have hnot : a ∉ (persistTranslationCache rest t).map Prod.fst :=
          fun hmem => hnd.1 ((persist_keys_sublist t rest).subset hmem)
        simp [persistTranslationCache, hv, lookupKey,
          lookupKey_none_of_notMem a _ hnot]
    · by_cases hv : t - v.timestamp < CACHE_TTL
      · simp [persistTranslationCache, hv, lookupKey, haq, ih hnd.2]
      · simp [persistTranslationCache, hv, lookupKey, haq, ih hnd.2]

theorem load_lookupKey (t : Int) (q : String) (stored : Cache) :
    ∀ (acc : Cache), (stored.map Prod.fst).Nodup →
      lookupKey (loadTranslationCache stored acc t) q =
        match lookupKey stored q with
        | some v => if t - v.timestamp < CACHE_TTL then some v else lookupKey acc q
        | none => lookupKey acc q := by
  induction stored with
  | nil => intro acc _; rfl
  | cons p rest ih =>
    intro acc hnd
    obtain ⟨a, v⟩ := p
    simp only [List.map_cons, List.nodup_cons] at hnd
    by_cases haq : a = q
    · subst haq
      have hnone : lookupKey rest a = none := lookupKey_none_of_notMem a rest hnd.1
      rw [loadTranslationCache, ih _ hnd.2, hnone]
      by_cases hv : t - v.timestamp < CACHE_TTL
      · simp [lookupKey, hv, lookupKey_insertEntry_self]
      · simp [lookupKey, hv]
    · rw [loadTranslationCache, ih _ hnd.2]
      have hacc :
          lookupKey (if t - v.timestamp < CACHE_TTL then insertEntry acc a v else acc) q =
            lookupKey acc q := by
        by_cases hv : t - v.timestamp < CACHE_TTL
        · simp [hv, lookupKey_insertEntry_ne acc a q v haq]
        · simp [hv]
      rw [hacc]
      simp [lookupKey, haq]

theorem mergeOne_id (results : List BItem) (cache : Cache) (now : Int) (it : BItem) :
    (mergeOne results cache now it).id = it.id := by
  unfold mergeOne
  cases hf : results.find? (fun r => r.id == it.id) with
  | none =>
    cases getCachedTranslation cache now it.id with
    | none => rfl
    | some c => rfl
  | some r =>
    have := List.find?_some hf
    simpa using (beq_iff_eq.mp this)

theorem mergeResults_ids (items results : List BItem) (cache : Cache) (now : Int) :
    (mergeResults items results cache now).map (fun r => r.id) =
      items.map fun it => it.id := by
  rw [mergeResults, List.map_map]
  exact List.map_congr_left fun it _ => mergeOne_id results cache now it

theorem translateBatch_ids (items : List BItem) (hasKey : Bool) (resp : ProviderResult)
    (now : Int) (cache : Cache) :
    (translateBatch items hasKey resp now cache).1.map (fun r => r.id) =
      items.map fun it => it.id := by
  unfold translateBatch
  by_cases hp : (pendingOf items cache now).isEmpty
  · simp [hp, List.map_map]
  · by_cases hk : hasKey = false
    · simp [hp, hk, List.map_map]
    · cases hu : usable resp with
      | none => simp [hp, hk, hu, List.map_map]
      | some tr => simp [hp, hk, hu, mergeResults_ids]

/-! ## Claim theorems -/

/-- C1 (counterexample): the fingerprint computation is not total. On the title
`"大火"` (any text with a character above U+00FF) the `btoa` call of line 47
throws, so no cache key string is returned - refuting the claim that the
computation has no failure mode for any input text. -/
theorem fingerprint_throws_on_nonLatin1 : fingerprint "大火" none = none := by decide

/-- C1 (amended): the fingerprint computation is pure and deterministic, and it
is total - returning a key string - on every title and optional summary whose
characters all lie in Latin-1 (the domain `btoa` accepts); outside that domain
it throws. -/
theorem fingerprint_total_on_latin1 (title : String) (summary : Option String)
    (h1 : latin1 title = true) (h2 : ∀ s, summary = some s → latin1 s = true) :
    (fingerprint title summary).isSome = true := by
  cases summary with
  | none => simp [fingerprint, btoa, h1]
  | some s =>
    by_cases hs : s = ""
    · simp [fingerprint, btoa, h1, hs]
    · simp [fingerprint, btoa, h1, hs, h2 s rfl]

/-- C1 witness: a concrete Latin-1 title and summary get a key. -/
theorem fingerprint_total_on_latin1_witness :
    (fingerprint "Hello" (some "World")).isSome = true :=
  fingerprint_total_on_latin1 "Hello" (some "World") (by decide)
    (fun s hs => by
      have : s = "World" := by injection hs with h; exact h.symm
      rw [this]
      decide)

/-- C2 (counterexample): two concurrent calls of `translateNews` with the same
`(title, summary)` and an empty cache, whose synchronous cache checks both run
before either `fetch` resolves, make 2 outbound provider calls, not exactly
one: `translateNews` has no in-flight registry. -/
theorem overlapped_calls_two_outbound_cex :
    overlappedRun "Hello" none (.ok (some "你好")) (.ok (some "你好")) 0 0 [] =
      .ok ((⟨"你好", none⟩, ⟨"你好", none⟩),
        [("trans_SGVsbG8=", ⟨"你好", none, 0⟩)], 2) := by rfl

/-- C2 (amended): when two calls of `translateNews` for the same fingerprint
overlap - both run their cache check before either provider call resolves -
each caller issues its own outbound call (2 in total for 2 callers, up to N
for N callers); each caller still receives a result without an exception, the
later completion's cache write winning.  Exactly one outbound call holds only
when the calls do not overlap (see the cache-hit theorem). -/
theorem overlapped_calls_each_dispatch (title : String) (summary : Option String)
    (key : String) (resp1 resp2 : ProviderResult) (now1 now2 : Int)
    (r1 r2 : TransResult) (c1 c2 : Cache)
    (hfp : fingerprint title summary = some key)
    (h1 : phase2 title summary key resp1 now2 [] = (r1, c1))
    (h2 : phase2 title summary key resp2 now2 c1 = (r2, c2)) :
    overlappedRun title summary resp1 resp2 now1 now2 [] = .ok ((r1, r2), c2, 2) := by
  have hmiss : getValid [] now1 key = none := rfl
  simp [overlappedRun, phase1, hfp, hmiss, h1, h2]

/-- C2 witness: concrete overlapped pair; the first call succeeds, the second
one's provider call throws, and both callers get results (2 outbound calls). -/
theorem overlapped_calls_each_dispatch_witness :
    overlappedRun "Hello" none (.ok (some "你好")) .throws 0 1 [] =
      .ok ((⟨"你好", none⟩, ⟨"Hello", none⟩),
        [("trans_SGVsbG8=", ⟨"你好", none, 1⟩)], 2) :=
  overlapped_calls_each_dispatch "Hello" none "trans_SGVsbG8=" (.ok (some "你好"))
    .throws 0 1 ⟨"你好", none⟩ ⟨"Hello", none⟩
    [("trans_SGVsbG8=", ⟨"你好", none, 1⟩)] [("trans_SGVsbG8=", ⟨"你好", none, 1⟩)]
    (by decide) (by decide) (by decide)

/-- C3: whenever the dispatched provider call fails - the fetch throws, the
response status is not ok, or the reply is empty/malformed (no usable
content) - `translateNews` returns the original `(title, summary)` unchanged
as a normal value (no exception), and the cache is left exactly as it was, so
no entry is written for the fingerprint and a later call may retry. -/
theorem translateNews_fallback_on_failure (title : String) (summary : Option String)
    (key : String) (resp : ProviderResult) (now : Int) (cache : Cache)
    (hfp : fingerprint title summary = some key)
    (hmiss : getValid cache now key = none)
    (hfail : usable resp = none) :
    translateNews title summary true resp now cache =
      .ok (⟨title, summary⟩, cache, true) := by
  simp [translateNews, phase1, hfp, hmiss, phase2, hfail]

/-- C3 witness: a throwing fetch on a fresh cache returns the original pair
and writes nothing. -/
theorem translateNews_fallback_on_failure_witness :
    translateNews "Storm hits coast" (some "Waves rise") true .throws 7 [] =
      .ok (⟨"Storm hits coast", some "Waves rise"⟩, [], true) :=
  translateNews_fallback_on_failure "Storm hits coast" (some "Waves rise")
    "trans_U3Rvcm0gaGl0cyBjb2FzdA==_V2F2ZXMgcmlzZQ==" .throws 7 []
    (by decide) (by decide) (by decide)

/-- C4 (counterexample): a duplicated ordinal does not degrade its item to the
original text. With one pending item `("a", "Hi")` and a reply numbering two
records `1.`, the item comes back with the first parsed translation `"X"`
(while the cache keeps the last one, `"Y"`) - not with its original `"Hi"`. -/
theorem translateBatch_duplicate_ordinal_cex :
    translateBatch [⟨"a", "Hi", none⟩] true (.ok (some "1.\nTitle: X\n1.\nTitle: Y")) 0 [] =
      ([⟨"a", "X", none⟩], [("trans_a", ⟨"Y", none, 0⟩)], true) := by decide

/-- C4 (amended): `translateBatch` always returns a list with the same ids in
the same order and cardinality as its input, never omitting an item; an
ordinal the provider skips or misformats degrades only that item to its
original text while the others keep their parsed translations (concrete
part: the reply resolves ordinals 1 and 3 of a 3-item batch, so item `b`
falls back while `a` and `c` are translated); a duplicated ordinal instead
yields that item's first parsed record. -/
theorem translateBatch_shape_and_degrade :
    (∀ (items : List BItem) (hasKey : Bool) (resp : ProviderResult) (now : Int) (cache : Cache),
      (translateBatch items hasKey resp now cache).1.map (fun r => r.id) =
        items.map fun it => it.id) ∧
    (translateBatch [⟨"a", "Apple", none⟩, ⟨"b", "Bread", none⟩, ⟨"c", "Cat", none⟩]
        true (.ok (some "1.\nTitle: 苹果\n3.\nTitle: 猫")) 0 []).1 =
      [⟨"a", "苹果", none⟩, ⟨"b", "Bread", none⟩, ⟨"c", "猫", none⟩] :=
  ⟨translateBatch_ids, by decide⟩

/-- C5: when the first `translateNews` call misses the cache, dispatches, and
succeeds (a usable reply parsed to `(tt, ts)`), it writes the fingerprint
entry; a second call within the TTL of that write returns the identical
result, leaves the cache unchanged, and makes no outbound call (whatever the
provider would have answered). -/
theorem translateNews_cache_idempotent (title : String) (summary : Option String)
    (key tr tt : String) (ts : Option String)
    (resp resp2 : ProviderResult) (now1 now2 : Int) (cache : Cache)
    (hfp : fingerprint title summary = some key)
    (hmiss : getValid cache now1 key = none)
    (hok : usable resp = some tr)
    (hps : parseSingle tr summary = (tt, ts))
    (httl : now2 - now1 < CACHE_TTL) :
    translateNews title summary true resp now1 cache =
      .ok (⟨tt, ts⟩, insertEntry cache key ⟨tt, ts, now1⟩, true) ∧
    translateNews title summary true resp2 now2 (insertEntry cache key ⟨tt, ts, now1⟩) =
      .ok (⟨tt, ts⟩, insertEntry cache key ⟨tt, ts, now1⟩, false) := by
  constructor
  · simp [translateNews, phase1, hfp, hmiss, phase2, hok, hps]
  · have hv : getValid (insertEntry cache key ⟨tt, ts, now1⟩) now2 key =
        some ⟨tt, ts, now1⟩ := by
      simp [getValid, lookupKey_insertEntry_self, httl]
    simp [translateNews, phase1, hfp, hv]

/-- C5 witness: the spec's concrete scenario - `"Fire breaks out downtown"`,
no summary, reply `"大火在市中心爆发"` - is translated once; a second call
1000 ms later returns the same pair with no outbound call. -/
theorem translateNews_cache_idempotent_witness :
    translateNews "Fire breaks out downtown" none true (.ok (some "大火在市中心爆发")) 0 [] =
      .ok (⟨"大火在市中心爆发", none⟩,
        insertEntry [] "trans_RmlyZSBicmVha3Mgb3V0IGRvd250b3du" ⟨"大火在市中心爆发", none, 0⟩,
        true) ∧
    translateNews "Fire breaks out downtown" none true .throws 1000
        (insertEntry [] "trans_RmlyZSBicmVha3Mgb3V0IGRvd250b3du" ⟨"大火在市中心爆发", none, 0⟩) =
      .ok (⟨"大火在市中心爆发", none⟩,
        insertEntry [] "trans_RmlyZSBicmVha3Mgb3V0IGRvd250b3du" ⟨"大火在市中心爆发", none, 0⟩,
        false) :=
  translateNews_cache_idempotent "Fire breaks out downtown" none
    "trans_RmlyZSBicmVha3Mgb3V0IGRvd250b3du" "大火在市中心爆发" "大火在市中心爆发" none
    (.ok (some "大火在市中心爆发")) .throws 0 1000 []
    (by decide) (by decide) (by decide) (by decide) (by decide)

/-- C6: an entry whose age is at least the 24-hour TTL is treated as absent by
every lookup - `getCachedTranslation` returns `null` for an expired id-keyed
entry, and `translateNews` with an expired fingerprint-keyed entry dispatches
a fresh outbound call (outbound flag `true`) even though the expired entries
are still present in the store (the lookup hypotheses). -/
theorem ttl_expiry_fresh_call (newsId title : String) (summary : Option String)
    (key : String) (v w : CacheVal) (resp : ProviderResult) (now : Int) (cache : Cache)
    (r : TransResult) (c2 : Cache)
    (hv : lookupKey cache (getCacheKey newsId) = some v)
    (hexpv : CACHE_TTL ≤ now - v.timestamp)
    (hfp : fingerprint title summary = some key)
    (hw : lookupKey cache key = some w)
    (hexpw : CACHE_TTL ≤ now - w.timestamp)
    (hp2 : phase2 title summary key resp now cache = (r, c2)) :
    getCachedTranslation cache now newsId = none ∧
    translateNews title summary true resp now cache = .ok (r, c2, true) := by
  have hnv : ¬ now - v.timestamp < CACHE_TTL := by omega
  have hnw : ¬ now - w.timestamp < CACHE_TTL := by omega
  constructor
  · simp [getCachedTranslation, getValid, hv, hnv]
  · have hmiss : getValid cache now key = none := by simp [getValid, hw, hnw]
    simp [translateNews, phase1, hfp, hmiss, hp2]

/-- C6 witness: entries written exactly 24 h ago (age = TTL) under the id key
`trans_x` and the fingerprint key of `("Hello", -)` are both ignored and a
fresh outbound call is made. -/
theorem ttl_expiry_fresh_call_witness :
    getCachedTranslation
        [("trans_x", ⟨"一", none, -86400000⟩), ("trans_SGVsbG8=", ⟨"二", none, -86400000⟩)]
        0 "x" = none ∧
    translateNews "Hello" none true (.ok (some "你好")) 0
        [("trans_x", ⟨"一", none, -86400000⟩), ("trans_SGVsbG8=", ⟨"二", none, -86400000⟩)] =
      .ok (⟨"你好", none⟩,
        [("trans_SGVsbG8=", ⟨"你好", none, 0⟩), ("trans_x", ⟨"一", none, -86400000⟩)],
        true) :=
  ttl_expiry_fresh_call "x" "Hello" none "trans_SGVsbG8="
    ⟨"一", none, -86400000⟩ ⟨"二", none, -86400000⟩ (.ok (some "你好")) 0
    [("trans_x", ⟨"一", none, -86400000⟩), ("trans_SGVsbG8=", ⟨"二", none, -86400000⟩)]
    ⟨"你好", none⟩
    [("trans_SGVsbG8=", ⟨"你好", none, 0⟩), ("trans_x", ⟨"一", none, -86400000⟩)]
    (by decide) (by decide) (by decide) (by decide) (by decide) (by decide)

/-- C7: persisting the cache at `tPersist` and reloading the snapshot into an
empty store (a restart) at any `tLoad ≥ tPersist` reproduces the TTL-guarded
`get` result of the original store at `tLoad` for every key, and every entry
already expired at persist time is absent from the reloaded store. -/
theorem snapshot_roundtrip (cache : Cache) (tPersist tLoad : Int) (k : String)
    (hnd : (cache.map Prod.fst).Nodup) (hle : tPersist ≤ tLoad) :
    getValid (loadTranslationCache (persistTranslationCache cache tPersist) [] tLoad) tLoad k =
      getValid cache tLoad k ∧
    (∀ v, lookupKey cache k = some v → CACHE_TTL ≤ tPersist - v.timestamp →
      lookupKey (loadTranslationCache (persistTranslationCache cache tPersist) [] tLoad) k =
        none) := by
  have hsnd : ((persistTranslationCache cache tPersist).map Prod.fst).Nodup :=
    hnd.sublist (persist_keys_sublist tPersist cache)
  have hload := load_lookupKey tLoad k (persistTranslationCache cache tPersist) [] hsnd
  have hper := persist_lookupKey tPersist k cache hnd
  constructor
  · simp only [getValid, hload, hper]
    cases hlk : lookupKey cache k with
    | none => simp [lookupKey]
    | some v =>
      by_cases h1 : tPersist - v.timestamp < CACHE_TTL
      · by_cases h2 : tLoad - v.timestamp < CACHE_TTL
        · simp [h1, h2]
        · simp [h1, h2, lookupKey]
      · have h2 : ¬ tLoad - v.timestamp < CACHE_TTL := by omega
        simp [h1, h2, lookupKey]
  · intro v hvk hexp
    have h1 : ¬ tPersist - v.timestamp < CACHE_TTL := by omega
    rw [hload, hper, hvk]
    simp [h1, lookupKey]

/-- C7 witness: a store with a fresh entry `a` and an entry `b` whose age is
exactly the TTL; after persist at 0 and reload at 1, `a` reads back the same
and `b` is gone from the reloaded store. -/
theorem snapshot_roundtrip_witness :
    getValid
        (loadTranslationCache
          (persistTranslationCache
            [("a", ⟨"X", none, 0⟩), ("b", ⟨"Y", none, -86400000⟩)] 0) [] 1)
        1 "a" =
      getValid [("a", ⟨"X", none, 0⟩), ("b", ⟨"Y", none, -86400000⟩)] 1 "a" ∧
    lookupKey
        (loadTranslationCache
          (persistTranslationCache
            [("a", ⟨"X", none, 0⟩), ("b", ⟨"Y", none, -86400000⟩)] 0) [] 1)
        "b" = none :=
  ⟨(snapshot_roundtrip [("a", ⟨"X", none, 0⟩), ("b", ⟨"Y", none, -86400000⟩)] 0 1 "a"
      (by decide) (by decide)).1,
   (snapshot_roundtrip [("a", ⟨"X", none, 0⟩), ("b", ⟨"Y", none, -86400000⟩)] 0 1 "b"
      (by decide) (by decide)).2 ⟨"Y", none, -86400000⟩ (by decide) (by decide)⟩

/-- C8 (counterexample): two pending items with identical text but distinct
ids both occupy an ordinal of the same composed provider call - the dispatched
prompt numbers `"Hello"` twice (and both items carry the same fingerprint), so
a fingerprint does not appear at most once per dispatched batch. -/
theorem batch_fingerprint_duplicate_cex :
    dispatchedPromptParts [⟨"a", "Hello", none⟩, ⟨"b", "Hello", none⟩] [] 0 =
      ["1. Title: Hello", "2. Title: Hello"] ∧
    fingerprint "Hello" none = some "trans_SGVsbG8=" := by decide

/-- C8 (amended): the batch `translateBatch` dispatches is deduplicated by
caller id, not by fingerprint: when the input ids are pairwise distinct each
id occupies at most one ordinal of the composed call, but two pending items
with identical `(title, summary)` text and distinct ids each occupy their own
ordinal. -/
theorem batch_ids_unique (items : List BItem) (cache : Cache) (now : Int)
    (h : (items.map fun it => it.id).Nodup) :
    ((pendingOf items cache now).map fun it => it.id).Nodup := by
  have hs : List.Sublist (pendingOf items cache now) items := List.filter_sublist items
  exact h.sublist (hs.map fun it => it.id)

/-- C8 witness: distinct ids with identical text stay pairwise distinct in the
pending batch. -/
theorem batch_ids_unique_witness :
    ((pendingOf [⟨"a", "Hello", none⟩, ⟨"b", "Hello", none⟩] [] 0).map fun it => it.id).Nodup :=
  batch_ids_unique [⟨"a", "Hello", none⟩, ⟨"b", "Hello", none⟩] [] 0 (by decide)

/-- C9 (counterexample): a write under a caller id does not populate any
fingerprint-keyed entry: after `cacheTranslation("id1", "X")` on an empty
store the only key present is `trans_id1`; in particular the content key of a
source text (e.g. `trans_SGVsbG8=` for `"Hello"`) is still absent. -/
theorem cacheTranslation_no_fingerprint_write_cex :
    (cacheTranslation "id1" "X" none 0 []).map Prod.fst = ["trans_id1"] ∧
    fingerprint "Hello" none = some "trans_SGVsbG8=" ∧
    lookupKey (cacheTranslation "id1" "X" none 0 []) "trans_SGVsbG8=" = none := by decide

/-- C9 (amended): a write under a caller id touches exactly the id-keyed entry
`trans_<id>` - it refreshes that entry and leaves every other key (hence every
fingerprint-keyed entry) unchanged; `TranslationStore.setTranslation` writes
through the same `cacheTranslation` path (with no summary), so the id index
can diverge from the content-keyed cache. -/
theorem cacheTranslation_only_id_key (newsId title : String) (summary : Option String)
    (now : Int) (cache : Cache) (k : String) (hk : k ≠ getCacheKey newsId) :
    lookupKey (cacheTranslation newsId title summary now cache) (getCacheKey newsId) =
      some ⟨title, summary, now⟩ ∧
    lookupKey (cacheTranslation newsId title summary now cache) k = lookupKey cache k ∧
    (setTranslation ⟨[], cache⟩ newsId title now).cache =
      cacheTranslation newsId title none now cache := by
  refine ⟨?_, ?_, rfl⟩
  · exact lookupKey_insertEntry_self cache (getCacheKey newsId) ⟨title, summary, now⟩
  · exact lookupKey_insertEntry_ne cache (getCacheKey newsId) k ⟨title, summary, now⟩
      (Ne.symm hk)

/-- C9 witness: writing id `n1` populates `trans_n1` only; the unrelated key
`trans_other` still reads as before. -/
theorem cacheTranslation_only_id_key_witness :
    lookupKey (cacheTranslation "n1" "T" (some "S") 3 []) (getCacheKey "n1") =
      some ⟨"T", some "S", 3⟩ ∧
    lookupKey (cacheTranslation "n1" "T" (some "S") 3 []) "trans_other" =
      lookupKey [] "trans_other" ∧
    (setTranslation ⟨[], []⟩ "n1" "T" 3).cache = cacheTranslation "n1" "T" none 3 [] :=
  cacheTranslation_only_id_key "n1" "T" (some "S") 3 [] "trans_other" (by decide)

/-- C10: when every input item is skipped as pending work - its title already
contains Chinese characters or a valid cache entry exists for its id -
`translateBatch` makes no outbound call and returns every item's original
title and summary (not the cached translations). -/
theorem translateBatch_all_skipped_originals (items : List BItem) (hasKey : Bool)
    (resp : ProviderResult) (now : Int) (cache : Cache)
    (h : ∀ it ∈ items,
      isChinese it.title = true ∨ (getCachedTranslation cache now it.id).isSome = true) :
    translateBatch items hasKey resp now cache =
      (items.map fun it => ⟨it.id, it.title, it.summary⟩, cache, false) := by
  have hp : pendingOf items cache now = [] := by
    unfold pendingOf
    rw [List.filter_eq_nil_iff]
    intro it hit
    rcases h it hit with hc | hc
    · simp [hc]
    · have hn : (getCachedTranslation cache now it.id).isNone = false := by
        cases hgc : getCachedTranslation cache now it.id with
        | none => rw [hgc] at hc; simp at hc
        | some c => rfl
      simp [hn]
  simp [translateBatch, hp]

/-- C10 witness: one already-Chinese title and one item with a valid cached
translation (`trans_b` holds `"世界"`) - no outbound call, and item `b` comes
back with its original `"Hello"`, not the cached `"世界"`. -/
theorem translateBatch_all_skipped_originals_witness :
    translateBatch [⟨"a", "你好", none⟩, ⟨"b", "Hello", none⟩] true .throws 1
        [("trans_b", ⟨"世界", none, 0⟩)] =
      ([⟨"a", "你好", none⟩, ⟨"b", "Hello", none⟩],
        [("trans_b", ⟨"世界", none, 0⟩)], false) :=
  translateBatch_all_skipped_originals
    [⟨"a", "你好", none⟩, ⟨"b", "Hello", none⟩] true .throws 1
    [("trans_b", ⟨"世界", none, 0⟩)] (by decide)
